import Mathlib

/-!
Verification of the sand-go credential broker (`sand.go`).

The Go client is embedded shallowly.  External collaborators — the cache
backend (`cache.Cache`), the OAuth2 token endpoint (`config.Token`), and
the caller-supplied downstream call (`exec`) — are modelled by an `Oracle`
giving the result of the k-th invocation of each.  Every observable side
effect (sleeps, cache reads/writes/deletes, token-endpoint calls,
downstream invocations) is recorded in an event trace threaded through the
computation as part of the explicit state `St`.

Conventions:
* a Go `time.Time` expiry is `Option Int` (Unix seconds); `none` is the
  zero value (`IsZero`), as in `oauth2.Token.Expiry`;
* sleep durations are in seconds: `time.Duration(math.Pow(2, retry)) *
  time.Second` is exactly `2 ^ retry` seconds for the small exponents used;
* cache TTLs are in seconds: `time.Duration(expiresIn) * time.Second`;
* a Go `error` result is `Option` / `Except`; the distinguished
  `AuthenticationError` is `GoError.authErr`, any other error value (e.g. a
  transport error from the downstream call) is `GoError.plainErr`.
-/

namespace Sand

/-- An observable effect performed by the client, in chronological order. -/
inductive Event where
  | sleep (sec : Nat)
  | cacheReadEv (key : String)
  | cacheWriteEv (key : String) (value : String) (ttlSec : Int)
  | cacheDeleteEv (key : String)
  | exchangeEv
  | execEv (token : String)
deriving DecidableEq, Repr

/-- `oauth2.Token`: access token string plus expiry (`none` = zero time). -/
structure OToken where
  accessToken : String
  expiry : Option Int
deriving DecidableEq, Repr

/-- `http.Response`, reduced to the only field the client inspects. -/
structure Response where
  statusCode : Int
deriving DecidableEq, Repr

/-- The `(resp, err)` pair returned by one invocation of the downstream call. -/
structure ExecRes where
  resp : Option Response
  err : Option String
deriving DecidableEq, Repr

/-- A Go error value as seen by callers of the client. -/
inductive GoError where
  | authErr (msg : String)
  | plainErr (msg : String)
deriving DecidableEq, Repr

/-- Behaviour of the external collaborators: the k-th cache read, the k-th
token-endpoint exchange, the k-th downstream invocation, and the current
Unix time (`time.Now().Unix()`). -/
structure Oracle where
  cacheRead : Nat → Option String
  exchange : Nat → Except String OToken
  exec : Nat → ExecRes
  now : Int

/-- Explicit state: how many of each external call have happened, plus the
event trace. -/
structure St where
  readIdx : Nat
  exchIdx : Nat
  execIdx : Nat
  events : List Event
deriving DecidableEq, Repr

/-- The state at the start of a call. -/
def St.init : St := ⟨0, 0, 0, []⟩

/-- `sand.Client`: the broker configuration (`Cache` field becomes the flag
`cacheEnabled`; a `nil` cache is `false`). -/
structure Client where
  clientID : String
  clientSecret : String
  tokenURL : String
  skipTLSVerify : Bool
  maxRetry : Int
  cacheEnabled : Bool
  cacheRoot : String
  cacheType : String
deriving DecidableEq, Repr

/-- `NewClient`: default option values; errors when a required argument is
missing. -/
def NewClient (id secret tokenURL : String) : Except String Client :=
  if id = "" ∨ secret = "" ∨ tokenURL = "" then
    .error "NewClient: missing required argument(s)"
  else
    .ok ⟨id, secret, tokenURL, false, 5, false, "sand", "resources"⟩

/-- Go `strings.Join`. -/
def strJoin (sep : String) : List String → String
  | [] => ""
  | [s] => s
  | s :: t :: r => s ++ sep ++ strJoin sep (t :: r)

/-- `Client.cacheKey`: `<CacheRoot>/<cacheType>/<key>`, plus
`/<scope1>_<scope2>_...` when scopes are present. -/
def Client.cacheKey (c : Client) (key : String) (scopes : List String) : String :=
  if 0 < scopes.length then
    c.cacheRoot ++ "/" ++ c.cacheType ++ "/" ++ key ++ "/" ++ strJoin "_" scopes
  else
    c.cacheRoot ++ "/" ++ c.cacheType ++ "/" ++ key

/-- Append one event to the trace. -/
def pushEv (s : St) (e : Event) : St := { s with events := s.events ++ [e] }

/-- Record one call to the token endpoint (`config.Token(ctx)`). -/
def bumpExch (s : St) : St :=
  { s with exchIdx := s.exchIdx + 1, events := s.events ++ [.exchangeEv] }

/-- Record one invocation of the downstream call (`exec(token)`). -/
def bumpExec (token : String) (s : St) : St :=
  { s with execIdx := s.execIdx + 1, events := s.events ++ [.execEv token] }

/-- Record one cache read. -/
def bumpRead (c : Client) (key : String) (scopes : List String) (s : St) : St :=
  { s with readIdx := s.readIdx + 1,
           events := s.events ++ [.cacheReadEv (c.cacheKey key scopes)] }

/-- The conditional cache eviction in the retry loop of
`RequestWithCustomRetry` (`if c.Cache != nil { c.Cache.Delete(...) }`). -/
def delStep (c : Client) (key : String) (scopes : List String) (s : St) : St :=
  if c.cacheEnabled then pushEv s (.cacheDeleteEv (c.cacheKey key scopes)) else s

/-- The retry loop inside `oauthToken`: while the exchange keeps failing and
attempts remain, sleep `2^retry` seconds and try again.  `fuel` is the
number of attempts left, `e` the current error. -/
def oauthRetryLoop (O : Oracle) : Nat → Nat → String → St → Except String OToken × St
  | 0, _, e, s => (.error e, s)
  | fuel + 1, retry, _, s =>
    match O.exchange (pushEv s (.sleep (2 ^ retry))).exchIdx with
    | .ok t => (.ok t, bumpExch (pushEv s (.sleep (2 ^ retry))))
    | .error e2 => oauthRetryLoop O fuel (retry + 1) e2 (bumpExch (pushEv s (.sleep (2 ^ retry))))

/-- `Client.oauthToken`: one exchange, then up to `numRetry` retries with
exponential backoff (a negative `numRetry` means `MaxRetry`); a final
failure is wrapped in `AuthenticationError`. -/
def Client.oauthToken (c : Client) (O : Oracle) (scopes : List String) (numRetry : Int)
    (s : St) : Except GoError OToken × St :=
  match O.exchange s.exchIdx with
  | .ok t => (.ok t, bumpExch s)
  | .error e =>
    match oauthRetryLoop O (if numRetry < 0 then c.maxRetry else numRetry).toNat 0 e (bumpExch s) with
    | (.ok t, s2) => (.ok t, s2)
    | (.error e2, s2) => (.error (.authErr e2), s2)

/-- `expiresIn` as computed in `Token`: `0` when the expiry is the zero
value (meaning no limit), otherwise `token.Expiry.Unix() - time.Now().Unix()`. -/
def expiresInOf (t : OToken) (now : Int) : Int :=
  match t.expiry with
  | none => 0
  | some u => u - now

/-- The part of `Client.Token` after the cache-read check: exchange, empty
token check, conditional cache write, return. -/
def Client.tokenFetch (c : Client) (O : Oracle) (key : String) (scopes : List String)
    (numRetry : Int) (s : St) : Except GoError String × St :=
  match Client.oauthToken c O scopes numRetry s with
  | (.error e, s1) => (.error e, s1)
  | (.ok t, s1) =>
    if t.accessToken = "" then (.error (.authErr "Invalid access token"), s1)
    else if c.cacheEnabled ∧ key ≠ "" then
      if 0 ≤ expiresInOf t O.now then
        (.ok t.accessToken,
          pushEv s1 (.cacheWriteEv (c.cacheKey key scopes) t.accessToken (expiresInOf t O.now)))
      else (.ok t.accessToken, s1)
    else (.ok t.accessToken, s1)

/-- `Client.Token`: cache read when a cache is configured and the caller key
is non-empty; on a hit return the cached string, otherwise fetch. -/
def Client.Token (c : Client) (O : Oracle) (key : String) (scopes : List String)
    (numRetry : Int) (s : St) : Except GoError String × St :=
  if c.cacheEnabled ∧ key ≠ "" then
    match O.cacheRead s.readIdx with
    | some t => (.ok t, bumpRead c key scopes s)
    | none => Client.tokenFetch c O key scopes numRetry (bumpRead c key scopes s)
  else Client.tokenFetch c O key scopes numRetry s

/-- The 401 test `resp.StatusCode == http.StatusUnauthorized` (a `nil`
response here would make the Go original panic; that world is outside the
model and never reached in the theorems below). -/
def is401 : Option Response → Bool
  | some r => r.statusCode == 401
  | none => false

/-- The unauthorized-retry loop of `RequestWithCustomRetry`: while the
response is 401 and attempts remain, sleep `2^retry` seconds, evict the
cached token, fetch a fresh one with zero retry budget, call again. -/
def reqRetryLoop (c : Client) (O : Oracle) (key : String) (scopes : List String) :
    Nat → Nat → Option Response → St → (Option Response × Option GoError) × St
  | 0, _, resp, s => ((resp, none), s)
  | fuel + 1, retry, resp, s =>
    if is401 resp then
      match Client.Token c O key scopes 0 (delStep c key scopes (pushEv s (.sleep (2 ^ retry)))) with
      | (.error e, s3) => ((resp, some e), s3)
      | (.ok tok, s3) =>
        match (O.exec s3.execIdx).err with
        | some e => (((O.exec s3.execIdx).resp, some (.plainErr e)), bumpExec tok s3)
        | none => reqRetryLoop c O key scopes fuel (retry + 1) (O.exec s3.execIdx).resp (bumpExec tok s3)
    else ((resp, none), s)

/-- `Client.RequestWithCustomRetry`: token, downstream call, then the
unauthorized-retry loop when `numRetry > 0` (negative `numRetry` means
`MaxRetry`). -/
def Client.RequestWithCustomRetry (c : Client) (O : Oracle) (key : String)
    (scopes : List String) (numRetry : Int) (s : St) :
    (Option Response × Option GoError) × St :=
  match Client.Token c O key scopes (if numRetry < 0 then c.maxRetry else numRetry) s with
  | (.error e, s1) => ((none, some e), s1)
  | (.ok tok, s1) =>
    match (O.exec s1.execIdx).err with
    | some e => (((O.exec s1.execIdx).resp, some (.plainErr e)), bumpExec tok s1)
    | none =>
      if 0 < (if numRetry < 0 then c.maxRetry else numRetry) then
        reqRetryLoop c O key scopes (if numRetry < 0 then c.maxRetry else numRetry).toNat 0
          (O.exec s1.execIdx).resp (bumpExec tok s1)
      else (((O.exec s1.execIdx).resp, none), bumpExec tok s1)

/-- `Client.Request`: `RequestWithCustomRetry` with the default `MaxRetry`. -/
def Client.Request (c : Client) (O : Oracle) (key : String) (scopes : List String)
    (s : St) : (Option Response × Option GoError) × St :=
  Client.RequestWithCustomRetry c O key scopes c.maxRetry s

/-! ### Trace observations -/

/-- Durations (seconds) of the sleep events, in order. -/
def sleeps : List Event → List Nat
  | [] => []
  | .sleep n :: l => n :: sleeps l
  | _ :: l => sleeps l

/-- Keys of the cache-delete events, in order. -/
def deletes : List Event → List String
  | [] => []
  | .cacheDeleteEv k :: l => k :: deletes l
  | _ :: l => deletes l

/-- `(key, value, ttl)` of the cache-write events, in order. -/
def writes : List Event → List (String × String × Int)
  | [] => []
  | .cacheWriteEv k v ttl :: l => (k, v, ttl) :: writes l
  | _ :: l => writes l

/-- All cache-touching events (reads, writes, deletes), in order. -/
def cacheEvs : List Event → List Event
  | [] => []
  | .cacheReadEv k :: l => .cacheReadEv k :: cacheEvs l
  | .cacheWriteEv k v ttl :: l => .cacheWriteEv k v ttl :: cacheEvs l
  | .cacheDeleteEv k :: l => .cacheDeleteEv k :: cacheEvs l
  | _ :: l => cacheEvs l

@[simp] theorem pushEv_readIdx (s : St) (e : Event) : (pushEv s e).readIdx = s.readIdx := rfl
@[simp] theorem pushEv_exchIdx (s : St) (e : Event) : (pushEv s e).exchIdx = s.exchIdx := rfl
@[simp] theorem pushEv_execIdx (s : St) (e : Event) : (pushEv s e).execIdx = s.execIdx := rfl
@[simp] theorem pushEv_events (s : St) (e : Event) : (pushEv s e).events = s.events ++ [e] := rfl

@[simp] theorem bumpExch_readIdx (s : St) : (bumpExch s).readIdx = s.readIdx := rfl
@[simp] theorem bumpExch_exchIdx (s : St) : (bumpExch s).exchIdx = s.exchIdx + 1 := rfl
@[simp] theorem bumpExch_execIdx (s : St) : (bumpExch s).execIdx = s.execIdx := rfl
@[simp] theorem bumpExch_events (s : St) : (bumpExch s).events = s.events ++ [.exchangeEv] := rfl

@[simp] theorem bumpExec_readIdx (t : String) (s : St) : (bumpExec t s).readIdx = s.readIdx := rfl
@[simp] theorem bumpExec_exchIdx (t : String) (s : St) : (bumpExec t s).exchIdx = s.exchIdx := rfl
@[simp] theorem bumpExec_execIdx (t : String) (s : St) : (bumpExec t s).execIdx = s.execIdx + 1 := rfl
@[simp] theorem bumpExec_events (t : String) (s : St) : (bumpExec t s).events = s.events ++ [.execEv t] := rfl

@[simp] theorem bumpRead_readIdx (c : Client) (k : String) (sc : List String) (s : St) :
    (bumpRead c k sc s).readIdx = s.readIdx + 1 := rfl
@[simp] theorem bumpRead_exchIdx (c : Client) (k : String) (sc : List String) (s : St) :
    (bumpRead c k sc s).exchIdx = s.exchIdx := rfl
@[simp] theorem bumpRead_execIdx (c : Client) (k : String) (sc : List String) (s : St) :
    (bumpRead c k sc s).execIdx = s.execIdx := rfl
@[simp] theorem bumpRead_events (c : Client) (k : String) (sc : List String) (s : St) :
    (bumpRead c k sc s).events = s.events ++ [.cacheReadEv (c.cacheKey k sc)] := rfl

@[simp] theorem delStep_readIdx (c : Client) (k : String) (sc : List String) (s : St) :
    (delStep c k sc s).readIdx = s.readIdx := by
  unfold delStep; split <;> rfl
@[simp] theorem delStep_exchIdx (c : Client) (k : String) (sc : List String) (s : St) :
    (delStep c k sc s).exchIdx = s.exchIdx := by
  unfold delStep; split <;> rfl
@[simp] theorem delStep_execIdx (c : Client) (k : String) (sc : List String) (s : St) :
    (delStep c k sc s).execIdx = s.execIdx := by
  unfold delStep; split <;> rfl
theorem delStep_events (c : Client) (k : String) (sc : List String) (s : St) :
    (delStep c k sc s).events =
      s.events ++ (if c.cacheEnabled then [.cacheDeleteEv (c.cacheKey k sc)] else []) := by
  unfold delStep; split <;> simp [pushEv]

theorem sleeps_append (a b : List Event) : sleeps (a ++ b) = sleeps a ++ sleeps b := by
  induction a with
  | nil => rfl
  | cons e t ih => cases e <;> simp [sleeps, ih]

theorem deletes_append (a b : List Event) : deletes (a ++ b) = deletes a ++ deletes b := by
  induction a with
  | nil => rfl
  | cons e t ih => cases e <;> simp [deletes, ih]

theorem writes_append (a b : List Event) : writes (a ++ b) = writes a ++ writes b := by
  induction a with
  | nil => rfl
  | cons e t ih => cases e <;> simp [writes, ih]

theorem cacheEvs_append (a b : List Event) : cacheEvs (a ++ b) = cacheEvs a ++ cacheEvs b := by
  induction a with
  | nil => rfl
  | cons e t ih => cases e <;> simp [cacheEvs, ih]

/-! ### Concrete collaborators used to exercise the theorems -/

/-- A broker with a cache configured. -/
def sampleClient : Client :=
  ⟨"id", "secret", "https://oauth.test/token", false, 5, true, "sand", "resources"⟩

/-- Cache always misses, exchange always succeeds, downstream call returns
401 twice and then 200. -/
def oracleA : Oracle :=
  ⟨fun _ => none, fun _ => .ok ⟨"tok", none⟩,
   fun k => if k < 2 then ⟨some ⟨401⟩, none⟩ else ⟨some ⟨200⟩, none⟩, 0⟩

/-- Exchange fails on every attempt. -/
def oracleFail : Oracle :=
  ⟨fun _ => none, fun _ => .error "boom", fun _ => ⟨some ⟨200⟩, none⟩, 0⟩

/-- Downstream call fails with a transport error on every invocation. -/
def oracleErr : Oracle :=
  ⟨fun _ => none, fun _ => .ok ⟨"tok", none⟩, fun _ => ⟨none, some "net down"⟩, 0⟩

/-- Downstream call always returns 401, no transport error. -/
def oracle401 : Oracle :=
  ⟨fun _ => none, fun _ => .ok ⟨"tok", none⟩, fun _ => ⟨some ⟨401⟩, none⟩, 0⟩

/-- Cache always hits with `"T1"`. -/
def oracleHit : Oracle :=
  ⟨fun _ => some "T1", fun _ => .error "unreachable", fun _ => ⟨some ⟨200⟩, none⟩, 0⟩

/-- Exchange succeeds with a token expiring 600 seconds after `now`. -/
def oracle600 : Oracle :=
  ⟨fun _ => none, fun _ => .ok ⟨"tok", some 600⟩, fun _ => ⟨some ⟨200⟩, none⟩, 0⟩

/-- Exchange nominally succeeds but yields an empty access token. -/
def oracleEmpty : Oracle :=
  ⟨fun _ => none, fun _ => .ok ⟨"", none⟩, fun _ => ⟨some ⟨200⟩, none⟩, 0⟩

/-- Exchange succeeds with a token expiring exactly at `now`. -/
def oracleNowExp : Oracle :=
  ⟨fun _ => none, fun _ => .ok ⟨"tok", some 42⟩, fun _ => ⟨some ⟨200⟩, none⟩, 42⟩

/-- Exchange succeeds with a token carrying the zero (unset) expiry. -/
def oracleNoExp : Oracle :=
  ⟨fun _ => none, fun _ => .ok ⟨"tok", none⟩, fun _ => ⟨some ⟨200⟩, none⟩, 42⟩

/-! ### Claim C5: a cache hit short-circuits the exchange -/

/-- C5: with a cache configured and a non-empty caller key, if the cache
read returns a value then `Token` returns exactly that value with no error,
having performed only the one cache read: no exchange, no expiry re-check,
no cache write or delete. -/
theorem C5_cache_hit_short_circuits (c : Client) (O : Oracle) (key : String)
    (scopes : List String) (n : Int) (tv : String)
    (hc : c.cacheEnabled = true) (hk : key ≠ "") (hr : O.cacheRead 0 = some tv) :
    Client.Token c O key scopes n St.init =
      (.ok tv, ⟨1, 0, 0, [.cacheReadEv (c.cacheKey key scopes)]⟩) := by
  simp [Client.Token, hc, hk, hr, St.init, bumpRead]

/-- C5 witness: concrete cache hit with value `"T1"`. -/
theorem C5_witness :
    Client.Token sampleClient oracleHit "svc" ["s1"] 5 St.init =
      (.ok "T1", ⟨1, 0, 0, [.cacheReadEv (Client.cacheKey sampleClient "svc" ["s1"])]⟩) :=
  C5_cache_hit_short_circuits sampleClient oracleHit "svc" ["s1"] 5 "T1" rfl (by decide) rfl

/-! ### Claim C2: token-exchange retry schedule and final failure -/

/-- C2: when every exchange attempt fails and `numRetry = 3`, `oauthToken`
performs the initial attempt plus 3 retries, sleeping 1s, 2s, 4s before the
respective retries (2^retry seconds for retry index 0, 1, 2), and returns
an Authentication Failure wrapping the last underlying error message. -/
theorem C2_exchange_retry_exhaustion (c : Client) (O : Oracle) (scopes : List String)
    (msgs : Nat → String) (hfail : ∀ k, O.exchange k = .error (msgs k)) :
    Client.oauthToken c O scopes 3 St.init =
      (.error (.authErr (msgs 3)),
       ⟨0, 4, 0, [.exchangeEv, .sleep 1, .exchangeEv, .sleep 2, .exchangeEv, .sleep 4,
                  .exchangeEv]⟩) := by
  have h3 : ((if (3 : Int) < 0 then c.maxRetry else 3).toNat) = 3 := by
    rw [if_neg (by norm_num : ¬ (3 : Int) < 0)]
    rfl
  simp only [Client.oauthToken, St.init, hfail, h3]
  norm_num [oauthRetryLoop, hfail, bumpExch, pushEv]

/-- C2 witness: concrete always-failing exchange with message `"boom"`. -/
theorem C2_witness :
    Client.oauthToken sampleClient oracleFail ["s1"] 3 St.init =
      (.error (.authErr "boom"),
       ⟨0, 4, 0, [.exchangeEv, .sleep 1, .exchangeEv, .sleep 2, .exchangeEv, .sleep 4,
                  .exchangeEv]⟩) :=
  C2_exchange_retry_exhaustion sampleClient oracleFail ["s1"] (fun _ => "boom") (fun _ => rfl)

/-! ### Claim C6: cache-write TTL on a successful exchange -/

/-- C6: on a cache miss followed by a successful exchange of a non-empty
token, `Token` returns the token string, and the cache write is: TTL
`u - now` seconds when the expiry is a finite instant `u` with
`u - now ≥ 0`; TTL value 0 (the unlimited-lifetime encoding) when the
expiry is the zero/unset value; and no write at all when `u - now < 0`. -/
theorem C6_cache_write_ttl (c : Client) (O : Oracle) (key : String)
    (scopes : List String) (n : Int) (t : OToken)
    (hc : c.cacheEnabled = true) (hk : key ≠ "") (hmiss : O.cacheRead 0 = none)
    (hx : O.exchange 0 = .ok t) (hne : t.accessToken ≠ "") :
    (Client.Token c O key scopes n St.init).1 = .ok t.accessToken ∧
    writes (Client.Token c O key scopes n St.init).2.events =
      (match t.expiry with
       | none => [(c.cacheKey key scopes, t.accessToken, (0 : Int))]
       | some u =>
         if 0 ≤ u - O.now then [(c.cacheKey key scopes, t.accessToken, u - O.now)] else []) := by
  rcases hE : t.expiry with _ | u
  · simp [Client.Token, Client.tokenFetch, Client.oauthToken, expiresInOf, hc, hk, hmiss, hx,
      hne, hE, St.init, bumpRead, bumpExch, pushEv, writes]
  · by_cases hpos : 0 ≤ u - O.now <;>
      simp [Client.Token, Client.tokenFetch, Client.oauthToken, expiresInOf, hc, hk, hmiss, hx,
        hne, hE, hpos, St.init, bumpRead, bumpExch, pushEv, writes]

/-- C6 witness: expiry 600 seconds after `now = 0` gives a write with TTL 600. -/
theorem C6_witness :
    (Client.Token sampleClient oracle600 "svc" ["s1"] 5 St.init).1 = .ok "tok" ∧
    writes (Client.Token sampleClient oracle600 "svc" ["s1"] 5 St.init).2.events =
      (if (0 : Int) ≤ 600 - 0 then
        [(Client.cacheKey sampleClient "svc" ["s1"], "tok", (600 : Int) - 0)] else []) :=
  C6_cache_write_ttl sampleClient oracle600 "svc" ["s1"] 5 ⟨"tok", some 600⟩ rfl (by decide)
    rfl rfl (by decide)

/-! ### Claim C7: an empty access token is an Authentication Failure -/

/-- Helper: `tokenFetch` on an exchange that nominally succeeds with an
empty access token. -/
theorem tokenFetch_empty_token (c : Client) (O : Oracle) (key : String)
    (scopes : List String) (n : Int) (s : St) (t : OToken)
    (hx : O.exchange s.exchIdx = .ok t) (hempty : t.accessToken = "") :
    Client.tokenFetch c O key scopes n s =
      (.error (.authErr "Invalid access token"), bumpExch s) := by
  simp [Client.tokenFetch, Client.oauthToken, hx, hempty]

/-- C7: when the exchange nominally succeeds but the access token is the
empty string, `Token` returns `""` (an error) classified as Authentication
Failure, writes nothing to the cache — while `oauthToken` (the exchanger
side) itself reports plain success, so the classification is the broker's. -/
theorem C7_empty_token_auth_failure (c : Client) (O : Oracle) (key : String)
    (scopes : List String) (n : Int) (t : OToken)
    (hreach : c.cacheEnabled = false ∨ key = "" ∨ O.cacheRead 0 = none)
    (hx : O.exchange 0 = .ok t) (hempty : t.accessToken = "") :
    (Client.Token c O key scopes n St.init).1 = .error (.authErr "Invalid access token") ∧
    writes (Client.Token c O key scopes n St.init).2.events = [] ∧
    (Client.oauthToken c O scopes n St.init).1 = .ok t := by
  have hfull : (Client.Token c O key scopes n St.init).1 =
        .error (.authErr "Invalid access token") ∧
      writes (Client.Token c O key scopes n St.init).2.events = [] := by
    rcases hreach with h | h | h
    · have e1 : Client.Token c O key scopes n St.init =
          Client.tokenFetch c O key scopes n St.init := by
        simp [Client.Token, h]
      rw [e1, tokenFetch_empty_token c O key scopes n St.init t hx hempty]
      simp [St.init, bumpExch, writes]
    · subst h
      have e1 : Client.Token c O "" scopes n St.init =
          Client.tokenFetch c O "" scopes n St.init := by
        simp [Client.Token]
      rw [e1, tokenFetch_empty_token c O "" scopes n St.init t hx hempty]
      simp [St.init, bumpExch, writes]
    · by_cases hck : c.cacheEnabled = true ∧ key ≠ ""
      · have hr0 : O.cacheRead St.init.readIdx = none := h
        have e1 : Client.Token c O key scopes n St.init =
            Client.tokenFetch c O key scopes n (bumpRead c key scopes St.init) := by
          simp [Client.Token, hck, hr0]
        rw [e1,
          tokenFetch_empty_token c O key scopes n (bumpRead c key scopes St.init) t hx hempty]
        simp [St.init, bumpRead, bumpExch, writes]
      · have e1 : Client.Token c O key scopes n St.init =
            Client.tokenFetch c O key scopes n St.init := by
          simp only [Client.Token, if_neg hck]
        rw [e1, tokenFetch_empty_token c O key scopes n St.init t hx hempty]
        simp [St.init, bumpExch, writes]
  exact ⟨hfull.1, hfull.2, by simp [Client.oauthToken, St.init, hx]⟩

/-- C7 witness: concrete empty-token exchange. -/
theorem C7_witness :
    (Client.Token sampleClient oracleEmpty "svc" ["s1"] 5 St.init).1 =
      .error (.authErr "Invalid access token") ∧
    writes (Client.Token sampleClient oracleEmpty "svc" ["s1"] 5 St.init).2.events = [] ∧
    (Client.oauthToken sampleClient oracleEmpty ["s1"] 5 St.init).1 = .ok ⟨"", none⟩ :=
  C7_empty_token_auth_failure sampleClient oracleEmpty "svc" ["s1"] 5 ⟨"", none⟩
    (Or.inr (Or.inr rfl)) rfl rfl

/-! ### Claim C10: a token expiring at the instant of caching is written
like a never-expiring one -/

/-- C10: with a cache miss and a successful exchange, a token whose finite
expiry equals the current time and a token with the zero/unset expiry
produce the very same outcome: both are written to the cache with TTL
value 0 — the encoding `Token` also uses for unlimited lifetime — so the
two are indistinguishable at the cache-write interface. -/
theorem C10_zero_ttl_ambiguity (c : Client) (O O' : Oracle) (key : String)
    (scopes : List String) (n : Int) (a : String)
    (hc : c.cacheEnabled = true) (hk : key ≠ "")
    (hm : O.cacheRead 0 = none) (hm' : O'.cacheRead 0 = none)
    (hx : O.exchange 0 = .ok ⟨a, some O.now⟩) (hx' : O'.exchange 0 = .ok ⟨a, none⟩)
    (hne : a ≠ "") :
    Client.Token c O key scopes n St.init =
      (.ok a, ⟨1, 1, 0, [.cacheReadEv (c.cacheKey key scopes), .exchangeEv,
                         .cacheWriteEv (c.cacheKey key scopes) a 0]⟩) ∧
    Client.Token c O' key scopes n St.init =
      (.ok a, ⟨1, 1, 0, [.cacheReadEv (c.cacheKey key scopes), .exchangeEv,
                         .cacheWriteEv (c.cacheKey key scopes) a 0]⟩) := by
  constructor
  · simp [Client.Token, Client.tokenFetch, Client.oauthToken, expiresInOf, hc, hk, hm, hx, hne,
      St.init, bumpRead, bumpExch, pushEv]
  · simp [Client.Token, Client.tokenFetch, Client.oauthToken, expiresInOf, hc, hk, hm', hx', hne,
      St.init, bumpRead, bumpExch, pushEv]

/-- C10 witness: expiry exactly at `now = 42` versus unset expiry. -/
theorem C10_witness :
    Client.Token sampleClient oracleNowExp "svc" ["s1"] 5 St.init =
      (.ok "tok", ⟨1, 1, 0, [.cacheReadEv (Client.cacheKey sampleClient "svc" ["s1"]),
                             .exchangeEv,
                             .cacheWriteEv (Client.cacheKey sampleClient "svc" ["s1"]) "tok" 0]⟩) ∧
    Client.Token sampleClient oracleNoExp "svc" ["s1"] 5 St.init =
      (.ok "tok", ⟨1, 1, 0, [.cacheReadEv (Client.cacheKey sampleClient "svc" ["s1"]),
                             .exchangeEv,
                             .cacheWriteEv (Client.cacheKey sampleClient "svc" ["s1"]) "tok" 0]⟩) :=
  C10_zero_ttl_ambiguity sampleClient oracleNowExp oracleNoExp "svc" ["s1"] 5 "tok" rfl
    (by decide) rfl rfl rfl rfl (by decide)

/-! ### Claim C8: an empty caller key never touches the cache -/

/-- The exchange retry loop performs no cache operation. -/
theorem oauthRetryLoop_cacheEvs (O : Oracle) :
    ∀ (fuel retry : Nat) (e : String) (s : St),
      cacheEvs (oauthRetryLoop O fuel retry e s).2.events = cacheEvs s.events := by
  intro fuel
  induction fuel with
  | zero => intro retry e s; rfl
  | succ n ih =>
    intro retry e s
    simp only [oauthRetryLoop]
    cases hE : O.exchange (pushEv s (.sleep (2 ^ retry))).exchIdx with
    | ok t => simp [cacheEvs_append, cacheEvs]
    | error e2 => simp [ih, cacheEvs_append, cacheEvs]

/-- `oauthToken` performs no cache operation. -/
theorem oauthToken_cacheEvs (c : Client) (O : Oracle) (scopes : List String) (n : Int)
    (s : St) : cacheEvs (Client.oauthToken c O scopes n s).2.events = cacheEvs s.events := by
  unfold Client.oauthToken
  cases hE : O.exchange s.exchIdx with
  | ok t => simp [cacheEvs_append, cacheEvs]
  | error e =>
    rcases hL : oauthRetryLoop O (if n < 0 then c.maxRetry else n).toNat 0 e (bumpExch s)
      with ⟨r, s2⟩
    have h2 : cacheEvs s2.events = cacheEvs s.events := by
      have := oauthRetryLoop_cacheEvs O (if n < 0 then c.maxRetry else n).toNat 0 e (bumpExch s)
      rw [hL] at this
      simpa [cacheEvs_append, cacheEvs] using this
    cases r <;> simp [hL, h2]

/-- C8: `Token` with an empty caller key is exactly the no-cache fetch path,
and its trace holds no cache read, write, or delete — even when a cache
backend is configured. -/
theorem C8_empty_key_never_touches_cache (c : Client) (O : Oracle) (scopes : List String)
    (n : Int) :
    Client.Token c O "" scopes n St.init = Client.tokenFetch c O "" scopes n St.init ∧
    cacheEvs (Client.Token c O "" scopes n St.init).2.events = [] := by
  have hT : Client.Token c O "" scopes n St.init = Client.tokenFetch c O "" scopes n St.init := by
    simp [Client.Token]
  refine ⟨hT, ?_⟩
  rw [hT]
  unfold Client.tokenFetch
  rcases hX : Client.oauthToken c O scopes n St.init with ⟨r, s1⟩
  have h1 : cacheEvs s1.events = [] := by
    have := oauthToken_cacheEvs c O scopes n St.init
    rw [hX] at this
    simpa [St.init, cacheEvs] using this
  cases r with
  | error e => simp [h1]
  | ok t =>
    by_cases he : t.accessToken = "" <;> simp [he, h1]

/-! ### Claim C9: cache-key construction -/

/-- Character-level view of `strJoin "_"`. -/
def chJoin : List String → List Char
  | [] => []
  | [s] => s.data
  | s :: t :: r => s.data ++ '_' :: chJoin (t :: r)

theorem strJoin_underscore_data : ∀ l : List String, (strJoin "_" l).data = chJoin l := by
  intro l
  induction l with
  | nil => rfl
  | cons a t ih =>
    cases t with
    | nil => rfl
    | cons b r => simp [strJoin, chJoin, String.data_append, ih]

/-- The first occurrence of a separator absent from both prefixes splits a
concatenation uniquely. -/
theorem splitAtSep (sep : Char) : ∀ x1 x2 y1 y2 : List Char, sep ∉ x1 → sep ∉ x2 →
    x1 ++ sep :: y1 = x2 ++ sep :: y2 → x1 = x2 ∧ y1 = y2 := by
  intro x1
  induction x1 with
  | nil =>
    intro x2 y1 y2 _ h2 heq
    cases x2 with
    | nil => simpa using heq
    | cons c t =>
      exfalso
      simp only [List.nil_append, List.cons_append] at heq
      obtain ⟨hc, _⟩ := List.cons.inj heq
      exact h2 (by rw [hc]; exact List.mem_cons_self _ _)
  | cons a t1 ih =>
    intro x2 y1 y2 h1 h2 heq
    cases x2 with
    | nil =>
      exfalso
      simp only [List.nil_append, List.cons_append] at heq
      obtain ⟨hc, _⟩ := List.cons.inj heq
      exact h1 (by rw [← hc]; exact List.mem_cons_self _ _)
    | cons b t2 =>
      simp only [List.cons_append] at heq
      obtain ⟨hab, hrest⟩ := List.cons.inj heq
      subst hab
      have hr := ih t2 y1 y2 (fun h => h1 (List.mem_cons_of_mem _ h))
        (fun h => h2 (List.mem_cons_of_mem _ h)) hrest
      exact ⟨by rw [hr.1], hr.2⟩

/-- On equal-length lists of underscore-free strings, the underscore join is
injective. -/
theorem chJoin_inj : ∀ l1 l2 : List String, l1.length = l2.length →
    (∀ x ∈ l1, ('_' : Char) ∉ x.data) → (∀ x ∈ l2, ('_' : Char) ∉ x.data) →
    chJoin l1 = chJoin l2 → l1 = l2 := by
  intro l1
  induction l1 with
  | nil =>
    intro l2 hl _ _ _
    cases l2 with
    | nil => rfl
    | cons b t2 => simp at hl
  | cons a t1 ih =>
    intro l2 hl h1 h2 heq
    cases l2 with
    | nil => simp at hl
    | cons b t2 =>
      cases t1 with
      | nil =>
        cases t2 with
        | nil => rw [String.ext (by simpa [chJoin] using heq : a.data = b.data)]
        | cons d r2 => simp at hl
      | cons c r1 =>
        cases t2 with
        | nil => simp at hl
        | cons d r2 =>
          have heq' : a.data ++ '_' :: chJoin (c :: r1) = b.data ++ '_' :: chJoin (d :: r2) := by
            simpa [chJoin] using heq
          have hsp := splitAtSep '_' a.data b.data (chJoin (c :: r1)) (chJoin (d :: r2))
            (h1 a (List.mem_cons_self _ _)) (h2 b (List.mem_cons_self _ _)) heq'
          have hab : a = b := String.ext hsp.1
          have ht : c :: r1 = d :: r2 := by
            refine ih (d :: r2) (by simpa using hl) ?_ ?_ hsp.2
            · intro x hx; exact h1 x (List.mem_cons_of_mem _ hx)
            · intro x hx; exact h2 x (List.mem_cons_of_mem _ hx)
          rw [hab, ht]

/-- C9 counterexample: the claim as frozen says reordering a scope list of
distinct elements always changes the key; the distinct scopes `"a"` and
`"a_a"` joined in either order give the same string `"a_a_a"`, hence the
same cache key. -/
theorem C9_counterexample :
    Client.cacheKey sampleClient "svc" ["a", "a_a"] =
        Client.cacheKey sampleClient "svc" ["a_a", "a"] ∧
      ["a", "a_a"] ≠ ["a_a", "a"] ∧ List.Nodup ["a", "a_a"] ∧
      List.Perm ["a", "a_a"] ["a_a", "a"] := by
  refine ⟨rfl, by decide, by decide, ?_⟩
  exact List.Perm.swap "a_a" "a" []

/-- C9 (amended): `cacheKey` computes `root ++ "/" ++ class ++ "/" ++ key`,
followed by `"/"` and the scopes joined with `"_"` in the order given when
scopes are non-empty (determinism is inherent: it is a pure function of its
arguments) — and for scope lists of distinct elements NONE OF WHICH
CONTAINS THE UNDERSCORE SEPARATOR, reordering the scopes changes the key. -/
theorem C9_cache_key_shape_and_order (c : Client) (key : String) :
    (∀ scopes : List String,
      c.cacheKey key scopes =
        (if 0 < scopes.length then
          c.cacheRoot ++ "/" ++ c.cacheType ++ "/" ++ key ++ "/" ++ strJoin "_" scopes
        else c.cacheRoot ++ "/" ++ c.cacheType ++ "/" ++ key)) ∧
    (∀ s1 s2 : List String, s1.Nodup → (∀ x ∈ s1, ('_' : Char) ∉ x.data) →
      s1.Perm s2 → s1 ≠ s2 → c.cacheKey key s1 ≠ c.cacheKey key s2) := by
  refine ⟨fun scopes => rfl, ?_⟩
  intro s1 s2 _hnd hns hperm hne hkeys
  cases s1 with
  | nil => exact hne (hperm.symm.eq_nil).symm
  | cons a t =>
    cases s2 with
    | nil => exact hne hperm.eq_nil
    | cons b u =>
      apply hne
      simp only [Client.cacheKey, List.length_cons] at hkeys
      rw [if_pos (Nat.succ_pos _), if_pos (Nat.succ_pos _)] at hkeys
      have hdata := congrArg String.data hkeys
      simp only [String.data_append] at hdata
      have hjoin : (strJoin "_" (a :: t)).data = (strJoin "_" (b :: u)).data :=
        List.append_cancel_left hdata
      rw [strJoin_underscore_data, strJoin_underscore_data] at hjoin
      exact chJoin_inj (a :: t) (b :: u) hperm.length_eq hns
        (fun x hx => hns x (hperm.mem_iff.mpr hx)) hjoin

/-- C9 witness: underscore-free distinct scopes in the two orders give
different keys. -/
theorem C9_witness :
    Client.cacheKey sampleClient "svc" ["read", "write"] ≠
      Client.cacheKey sampleClient "svc" ["write", "read"] :=
  (C9_cache_key_shape_and_order sampleClient "svc").2 ["read", "write"] ["write", "read"]
    (by decide) (by decide) (List.Perm.swap "write" "read" []) (by decide)

/-! ### Structural lemmas about `Token` used by the orchestrator claims -/

/-- Filtering cache events first does not change the deletes seen. -/
theorem deletes_cacheEvs (l : List Event) : deletes (cacheEvs l) = deletes l := by
  induction l with
  | nil => rfl
  | cons e t ih => cases e <;> simp [cacheEvs, deletes, ih]

/-- The exchange retry loop never touches the downstream-call counter. -/
theorem oauthRetryLoop_execIdx (O : Oracle) :
    ∀ (fuel retry : Nat) (e : String) (s : St),
      (oauthRetryLoop O fuel retry e s).2.execIdx = s.execIdx := by
  intro fuel
  induction fuel with
  | zero => intro _ _ _; rfl
  | succ n ih =>
    intro retry e s
    simp only [oauthRetryLoop]
    cases hE : O.exchange (pushEv s (.sleep (2 ^ retry))).exchIdx with
    | ok t => simp
    | error e2 => simp [ih]

/-- `oauthToken` never touches the downstream-call counter. -/
theorem oauthToken_execIdx (c : Client) (O : Oracle) (scopes : List String) (n : Int)
    (s : St) : (Client.oauthToken c O scopes n s).2.execIdx = s.execIdx := by
  unfold Client.oauthToken
  cases hE : O.exchange s.exchIdx with
  | ok t => simp
  | error e =>
    rcases hL : oauthRetryLoop O (if n < 0 then c.maxRetry else n).toNat 0 e (bumpExch s)
      with ⟨r, s2⟩
    have h2 : s2.execIdx = s.execIdx := by
      have := oauthRetryLoop_execIdx O (if n < 0 then c.maxRetry else n).toNat 0 e (bumpExch s)
      rw [hL] at this
      simpa using this
    cases r <;> simp [hL, h2]

/-- `tokenFetch` never touches the downstream-call counter. -/
theorem tokenFetch_execIdx (c : Client) (O : Oracle) (key : String) (scopes : List String)
    (n : Int) (s : St) : (Client.tokenFetch c O key scopes n s).2.execIdx = s.execIdx := by
  unfold Client.tokenFetch
  rcases hX : Client.oauthToken c O scopes n s with ⟨r, s1⟩
  have h1 : s1.execIdx = s.execIdx := by
    have := oauthToken_execIdx c O scopes n s
    rw [hX] at this
    exact this
  cases r with
  | error e => simpa using h1
  | ok t =>
    by_cases he : t.accessToken = ""
    · simp [he, h1]
    · by_cases hg : c.cacheEnabled = true ∧ key ≠ ""
      · by_cases hp : 0 ≤ expiresInOf t O.now <;> simp [he, hg, hp, h1]
      · simp [he, hg, h1]

/-- `Token` never invokes the downstream call. -/
theorem Token_execIdx (c : Client) (O : Oracle) (key : String) (scopes : List String)
    (n : Int) (s : St) : (Client.Token c O key scopes n s).2.execIdx = s.execIdx := by
  unfold Client.Token
  by_cases hg : c.cacheEnabled = true ∧ key ≠ ""
  · simp only [if_pos hg]
    cases hRd : O.cacheRead s.readIdx with
    | some t => simp
    | none => simpa using tokenFetch_execIdx c O key scopes n (bumpRead c key scopes s)
  · simpa [if_neg hg] using tokenFetch_execIdx c O key scopes n s

/-- `oauthToken` performs no cache delete. -/
theorem oauthToken_deletes (c : Client) (O : Oracle) (scopes : List String) (n : Int)
    (s : St) : deletes (Client.oauthToken c O scopes n s).2.events = deletes s.events := by
  rw [← deletes_cacheEvs, oauthToken_cacheEvs, deletes_cacheEvs]

/-- `tokenFetch` performs no cache delete. -/
theorem tokenFetch_deletes (c : Client) (O : Oracle) (key : String) (scopes : List String)
    (n : Int) (s : St) :
    deletes (Client.tokenFetch c O key scopes n s).2.events = deletes s.events := by
  unfold Client.tokenFetch
  rcases hX : Client.oauthToken c O scopes n s with ⟨r, s1⟩
  have h1 : deletes s1.events = deletes s.events := by
    have := oauthToken_deletes c O scopes n s
    rw [hX] at this
    exact this
  cases r with
  | error e => simpa using h1
  | ok t =>
    by_cases he : t.accessToken = ""
    · simp [he, h1]
    · by_cases hg : c.cacheEnabled = true ∧ key ≠ ""
      · by_cases hp : 0 ≤ expiresInOf t O.now <;>
          simp [he, hg, hp, h1, deletes_append, deletes]
      · simp [he, hg, h1]

/-- `Token` performs no cache delete (eviction is the orchestrator's job). -/
theorem Token_deletes (c : Client) (O : Oracle) (key : String) (scopes : List String)
    (n : Int) (s : St) :
    deletes (Client.Token c O key scopes n s).2.events = deletes s.events := by
  unfold Client.Token
  by_cases hg : c.cacheEnabled = true ∧ key ≠ ""
  · simp only [if_pos hg]
    cases hRd : O.cacheRead s.readIdx with
    | some t => simp [deletes_append, deletes]
    | none =>
      have := tokenFetch_deletes c O key scopes n (bumpRead c key scopes s)
      simpa [deletes_append, deletes] using this
  · simpa [if_neg hg] using tokenFetch_deletes c O key scopes n s

/-- With a zero retry budget, `oauthToken` never sleeps. -/
theorem oauthToken_sleeps_zero (c : Client) (O : Oracle) (scopes : List String) (s : St) :
    sleeps (Client.oauthToken c O scopes 0 s).2.events = sleeps s.events := by
  unfold Client.oauthToken
  cases hE : O.exchange s.exchIdx with
  | ok t => simp [sleeps_append, sleeps]
  | error e =>
    have h0 : ((if (0 : Int) < 0 then c.maxRetry else (0 : Int)).toNat) = 0 := by
      rw [if_neg (by norm_num : ¬ (0 : Int) < 0)]
      rfl
    rw [h0]
    simp [oauthRetryLoop, sleeps_append, sleeps]

/-- With a zero retry budget, `tokenFetch` never sleeps. -/
theorem tokenFetch_sleeps_zero (c : Client) (O : Oracle) (key : String)
    (scopes : List String) (s : St) :
    sleeps (Client.tokenFetch c O key scopes 0 s).2.events = sleeps s.events := by
  unfold Client.tokenFetch
  rcases hX : Client.oauthToken c O scopes 0 s with ⟨r, s1⟩
  have h1 : sleeps s1.events = sleeps s.events := by
    have := oauthToken_sleeps_zero c O scopes s
    rw [hX] at this
    exact this
  cases r with
  | error e => simpa using h1
  | ok t =>
    by_cases he : t.accessToken = ""
    · simp [he, h1]
    · by_cases hg : c.cacheEnabled = true ∧ key ≠ ""
      · by_cases hp : 0 ≤ expiresInOf t O.now <;>
          simp [he, hg, hp, h1, sleeps_append, sleeps]
      · simp [he, hg, h1]

/-- With a zero retry budget, `Token` never sleeps. -/
theorem Token_sleeps_zero (c : Client) (O : Oracle) (key : String) (scopes : List String)
    (s : St) : sleeps (Client.Token c O key scopes 0 s).2.events = sleeps s.events := by
  unfold Client.Token
  by_cases hg : c.cacheEnabled = true ∧ key ≠ ""
  · simp only [if_pos hg]
    cases hRd : O.cacheRead s.readIdx with
    | some t => simp [sleeps_append, sleeps]
    | none =>
      have := tokenFetch_sleeps_zero c O key scopes (bumpRead c key scopes s)
      simpa [sleeps_append, sleeps] using this
  · simpa [if_neg hg] using tokenFetch_sleeps_zero c O key scopes s

/-- When the cache always misses and every exchange immediately yields a
non-empty token, `tokenFetch` succeeds without sleeping, deleting, or
invoking the downstream call. -/
theorem tokenFetch_sc (c : Client) (O : Oracle) (key : String) (scopes : List String)
    (n : Int) (s : St)
    (hex : ∀ k, ∃ t, O.exchange k = .ok t ∧ t.accessToken ≠ "") :
    ∃ tk s', Client.tokenFetch c O key scopes n s = (.ok tk, s') ∧
      s'.execIdx = s.execIdx ∧ sleeps s'.events = sleeps s.events ∧
      deletes s'.events = deletes s.events := by
  obtain ⟨t, ht, hne⟩ := hex s.exchIdx
  have hoa : Client.oauthToken c O scopes n s = (.ok t, bumpExch s) := by
    simp [Client.oauthToken, ht]
  by_cases hg : c.cacheEnabled = true ∧ key ≠ ""
  · by_cases hp : 0 ≤ expiresInOf t O.now
    · exact ⟨t.accessToken,
        pushEv (bumpExch s)
          (.cacheWriteEv (c.cacheKey key scopes) t.accessToken (expiresInOf t O.now)),
        by simp [Client.tokenFetch, hoa, hne, hg, hp], by simp,
        by simp [sleeps_append, sleeps], by simp [deletes_append, deletes]⟩
    · exact ⟨t.accessToken, bumpExch s, by simp [Client.tokenFetch, hoa, hne, hg, hp], by simp,
        by simp [sleeps_append, sleeps], by simp [deletes_append, deletes]⟩
  · exact ⟨t.accessToken, bumpExch s, by simp [Client.tokenFetch, hoa, hne, hg], by simp,
      by simp [sleeps_append, sleeps], by simp [deletes_append, deletes]⟩

/-- When the cache always misses and every exchange immediately yields a
non-empty token, `Token` succeeds without sleeping, deleting, or invoking
the downstream call — whatever the retry budget and cache configuration. -/
theorem Token_sc (c : Client) (O : Oracle) (key : String) (scopes : List String)
    (n : Int) (s : St)
    (hcr : ∀ k, O.cacheRead k = none)
    (hex : ∀ k, ∃ t, O.exchange k = .ok t ∧ t.accessToken ≠ "") :
    ∃ tk s', Client.Token c O key scopes n s = (.ok tk, s') ∧
      s'.execIdx = s.execIdx ∧ sleeps s'.events = sleeps s.events ∧
      deletes s'.events = deletes s.events := by
  by_cases hg : c.cacheEnabled = true ∧ key ≠ ""
  · obtain ⟨tk, s', h1, h2, h3, h4⟩ := tokenFetch_sc c O key scopes n (bumpRead c key scopes s) hex
    refine ⟨tk, s', ?_, by simpa using h2, by simpa [sleeps_append, sleeps] using h3,
      by simpa [deletes_append, deletes] using h4⟩
    simp [Client.Token, hg, hcr, h1]
  · obtain ⟨tk, s', h1, h2, h3, h4⟩ := tokenFetch_sc c O key scopes n s hex
    exact ⟨tk, s', by simp [Client.Token, hg, h1], h2, h3, h4⟩

/-! ### Claim C4: `numRetry = 0` returns a 401 as-is -/

/-- C4: with `numRetry = 0`, a successful token fetch and a downstream call
answering 401 with no transport error, the 401 response is returned
unmodified with no error; the whole trace is the token fetch followed by the
single downstream invocation — so no retry sleep, no cache eviction, no
additional token fetch, and exactly one `exec` call. -/
theorem C4_zero_retry_returns_unauthorized (c : Client) (O : Oracle) (key : String)
    (scopes : List String) (r : Response) (tk : String)
    (htok : (Client.Token c O key scopes 0 St.init).1 = .ok tk)
    (h0 : O.exec 0 = ⟨some r, none⟩) (hst : r.statusCode = 401) :
    (Client.RequestWithCustomRetry c O key scopes 0 St.init).1 = (some r, none) ∧
    (Client.RequestWithCustomRetry c O key scopes 0 St.init).2.events =
      (Client.Token c O key scopes 0 St.init).2.events ++ [.execEv tk] ∧
    (Client.RequestWithCustomRetry c O key scopes 0 St.init).2.execIdx = 1 ∧
    sleeps (Client.RequestWithCustomRetry c O key scopes 0 St.init).2.events = [] ∧
    deletes (Client.RequestWithCustomRetry c O key scopes 0 St.init).2.events = [] := by
  have hi : (Client.Token c O key scopes 0 St.init).2.execIdx = 0 :=
    Token_execIdx c O key scopes 0 St.init
  have hslz : sleeps (Client.Token c O key scopes 0 St.init).2.events = [] :=
    Token_sleeps_zero c O key scopes St.init
  have hdlz : deletes (Client.Token c O key scopes 0 St.init).2.events = [] :=
    Token_deletes c O key scopes 0 St.init
  rcases hT : Client.Token c O key scopes 0 St.init with ⟨tr, s1⟩
  rw [hT] at htok hi hslz hdlz
  simp only at htok hi hslz hdlz
  subst htok
  have hn0 : (if (0 : Int) < 0 then c.maxRetry else (0 : Int)) = 0 :=
    if_neg (by norm_num)
  simp only [Client.RequestWithCustomRetry, hn0, hT, hi, h0]
  simp [hslz, hdlz, hi, sleeps_append, deletes_append, sleeps, deletes]

/-- C4 witness: concrete always-401 downstream call with zero retries. -/
theorem C4_witness :
    (Client.RequestWithCustomRetry sampleClient oracle401 "svc" ["s1"] 0 St.init).1 =
      (some ⟨401⟩, none) ∧
    (Client.RequestWithCustomRetry sampleClient oracle401 "svc" ["s1"] 0 St.init).2.events =
      (Client.Token sampleClient oracle401 "svc" ["s1"] 0 St.init).2.events ++
        [.execEv "tok"] ∧
    (Client.RequestWithCustomRetry sampleClient oracle401 "svc" ["s1"] 0 St.init).2.execIdx = 1 ∧
    sleeps (Client.RequestWithCustomRetry sampleClient oracle401 "svc" ["s1"] 0
        St.init).2.events = [] ∧
    deletes (Client.RequestWithCustomRetry sampleClient oracle401 "svc" ["s1"] 0
        St.init).2.events = [] :=
  C4_zero_retry_returns_unauthorized sampleClient oracle401 "svc" ["s1"] ⟨401⟩ "tok"
    rfl rfl rfl

/-! ### Claim C1: two 401s then success under `numRetry = 2` -/

/-- One iteration of the unauthorized-retry loop on a 401 response, when the
token fetches succeed: it sleeps `2^retry` seconds, evicts the derived key
exactly when a cache is configured, fetches a token, invokes the downstream
call, and continues with the next response. -/
theorem reqRetryLoop_step (c : Client) (O : Oracle) (key : String) (scopes : List String)
    (hcr : ∀ k, O.cacheRead k = none)
    (hex : ∀ k, ∃ t, O.exchange k = .ok t ∧ t.accessToken ≠ "")
    (fuel retry : Nat) (r : Response) (s : St)
    (hr : r.statusCode = 401) (hee : (O.exec s.execIdx).err = none) :
    ∃ tk s', reqRetryLoop c O key scopes (fuel + 1) retry (some r) s =
        reqRetryLoop c O key scopes fuel (retry + 1) (O.exec s.execIdx).resp (bumpExec tk s') ∧
      s'.execIdx = s.execIdx ∧
      sleeps s'.events = sleeps s.events ++ [2 ^ retry] ∧
      deletes s'.events = deletes s.events ++
        (if c.cacheEnabled = true then [c.cacheKey key scopes] else []) := by
  obtain ⟨tk, s3, hT, hi, hsl, hdl⟩ :=
    Token_sc c O key scopes 0 (delStep c key scopes (pushEv s (.sleep (2 ^ retry)))) hcr hex
  have hi' : s3.execIdx = s.execIdx := by simpa using hi
  have hcond : is401 (some r) = true := by simp [is401, hr]
  refine ⟨tk, s3, ?_, hi', ?_, ?_⟩
  · simp only [reqRetryLoop]
    rw [if_pos hcond, hT]
    simp only [hi', hee]
  · rw [hsl, delStep_events]
    cases hc : c.cacheEnabled <;> simp [sleeps_append, sleeps]
  · rw [hdl, delStep_events]
    cases hc : c.cacheEnabled <;> simp [hc, deletes_append, deletes]

/-- C1: with `numRetry = 2`, a downstream call answering 401, 401, then
non-401 (no transport errors), and token fetches that succeed, the
orchestrator sleeps exactly 1s then 2s, evicts the derived cache key
exactly twice when a cache is configured (never otherwise), invokes the
downstream call exactly 3 times, and returns the third response with no
error. -/
theorem C1_two_unauthorized_then_success (c : Client) (O : Oracle) (key : String)
    (scopes : List String) (r0 r1 r2 : Response)
    (h0 : O.exec 0 = ⟨some r0, none⟩) (h1 : O.exec 1 = ⟨some r1, none⟩)
    (h2 : O.exec 2 = ⟨some r2, none⟩)
    (h0s : r0.statusCode = 401) (h1s : r1.statusCode = 401) (h2s : r2.statusCode ≠ 401)
    (hcr : ∀ k, O.cacheRead k = none)
    (hex : ∀ k, ∃ t, O.exchange k = .ok t ∧ t.accessToken ≠ "") :
    (Client.RequestWithCustomRetry c O key scopes 2 St.init).1 = (some r2, none) ∧
    sleeps (Client.RequestWithCustomRetry c O key scopes 2 St.init).2.events = [1, 2] ∧
    deletes (Client.RequestWithCustomRetry c O key scopes 2 St.init).2.events =
      (if c.cacheEnabled = true
        then [c.cacheKey key scopes, c.cacheKey key scopes] else []) ∧
    (Client.RequestWithCustomRetry c O key scopes 2 St.init).2.execIdx = 3 := by
  obtain ⟨tk0, s1, hT1, hi1, hsl1, hdl1⟩ := Token_sc c O key scopes 2 St.init hcr hex
  have hi1' : s1.execIdx = 0 := hi1
  have hsl1' : sleeps s1.events = [] := hsl1
  have hdl1' : deletes s1.events = [] := hdl1
  have hn2 : (if (2 : Int) < 0 then c.maxRetry else (2 : Int)) = 2 := if_neg (by norm_num)
  have hR : Client.RequestWithCustomRetry c O key scopes 2 St.init =
      reqRetryLoop c O key scopes 2 0 (some r0) (bumpExec tk0 s1) := by
    simp only [Client.RequestWithCustomRetry, hn2, hT1, hi1', h0]
    rw [if_pos (by norm_num : (0 : Int) < 2)]
    rfl
  have hee1 : (O.exec (bumpExec tk0 s1).execIdx).err = none := by simp [hi1', h1]
  obtain ⟨tk1, s3, hS1, hi3, hsl3, hdl3⟩ :=
    reqRetryLoop_step c O key scopes hcr hex 1 0 r0 (bumpExec tk0 s1) h0s hee1
  have hresp1 : (O.exec (bumpExec tk0 s1).execIdx).resp = some r1 := by simp [hi1', h1]
  rw [hresp1] at hS1
  have hi3' : s3.execIdx = 1 := by simpa [hi1'] using hi3
  have hsl3' : sleeps s3.events = [1] := by
    rw [hsl3]
    simp [hsl1', sleeps_append, sleeps]
  have hdl3' : deletes s3.events =
      (if c.cacheEnabled = true then [c.cacheKey key scopes] else []) := by
    rw [hdl3]
    simp [hdl1', deletes_append, deletes]
  have hee2 : (O.exec (bumpExec tk1 s3).execIdx).err = none := by simp [hi3', h2]
  obtain ⟨tk2, s5, hS2, hi5, hsl5, hdl5⟩ :=
    reqRetryLoop_step c O key scopes hcr hex 0 1 r1 (bumpExec tk1 s3) h1s hee2
  have hresp2 : (O.exec (bumpExec tk1 s3).execIdx).resp = some r2 := by simp [hi3', h2]
  rw [hresp2] at hS2
  have hi5' : s5.execIdx = 2 := by simpa [hi3'] using hi5
  have hsl5' : sleeps s5.events = [1, 2] := by
    rw [hsl5]
    simp [hsl3', sleeps_append, sleeps]
  have hdl5' : deletes s5.events =
      (if c.cacheEnabled = true
        then [c.cacheKey key scopes, c.cacheKey key scopes] else []) := by
    rw [hdl5]
    cases hc : c.cacheEnabled <;> simp [hc, deletes_append, deletes, hdl3']
  have hfin : reqRetryLoop c O key scopes 0 2 (some r2) (bumpExec tk2 s5) =
      ((some r2, none), bumpExec tk2 s5) := rfl
  rw [hR, hS1, hS2, hfin]
  refine ⟨rfl, ?_, ?_, ?_⟩
  · simp [hsl5', sleeps_append, sleeps]
  · simp [hdl5', deletes_append, deletes]
  · simp [hi5']

/-- C1 witness: concrete 401, 401, 200 downstream behaviour. -/
theorem C1_witness :
    (Client.RequestWithCustomRetry sampleClient oracleA "svc" ["s1"] 2 St.init).1 =
      (some ⟨200⟩, none) ∧
    sleeps (Client.RequestWithCustomRetry sampleClient oracleA "svc" ["s1"] 2
        St.init).2.events = [1, 2] ∧
    deletes (Client.RequestWithCustomRetry sampleClient oracleA "svc" ["s1"] 2
        St.init).2.events =
      (if sampleClient.cacheEnabled = true
        then [Client.cacheKey sampleClient "svc" ["s1"],
              Client.cacheKey sampleClient "svc" ["s1"]] else []) ∧
    (Client.RequestWithCustomRetry sampleClient oracleA "svc" ["s1"] 2 St.init).2.execIdx = 3 :=
  C1_two_unauthorized_then_success sampleClient oracleA "svc" ["s1"] ⟨401⟩ ⟨401⟩ ⟨200⟩
    rfl rfl rfl rfl rfl (by decide) (fun _ => rfl) (fun _ => ⟨⟨"tok", none⟩, rfl, by decide⟩)

/-! ### Claim C3: a transport error returns immediately -/

/-- Inside the unauthorized-retry loop: if invocation `j` of the downstream
call carries a transport error and the loop reaches it, the loop stops right
there — the error is returned (wrapped as a plain Go error) with that
invocation's response, no further invocation happens, and the erroring
invocation is the very last event of the trace. -/
theorem reqRetryLoop_transport (c : Client) (O : Oracle) (key : String)
    (scopes : List String) (j : Nat) (e : String) (hj : (O.exec j).err = some e) :
    ∀ (fuel retry : Nat) (resp : Option Response) (s : St), s.execIdx ≤ j →
      j < (reqRetryLoop c O key scopes fuel retry resp s).2.execIdx →
      (reqRetryLoop c O key scopes fuel retry resp s).1.2 = some (.plainErr e) ∧
      (reqRetryLoop c O key scopes fuel retry resp s).1.1 = (O.exec j).resp ∧
      (reqRetryLoop c O key scopes fuel retry resp s).2.execIdx = j + 1 ∧
      ∃ t, (reqRetryLoop c O key scopes fuel retry resp s).2.events.getLast? =
        some (.execEv t) := by
  intro fuel
  induction fuel with
  | zero =>
    intro retry resp s hle hlt
    have h0 : reqRetryLoop c O key scopes 0 retry resp s = ((resp, none), s) := rfl
    rw [h0] at hlt
    simp at hlt
    omega
  | succ n ih =>
    intro retry resp s hle hlt
    by_cases hcond : is401 resp = true
    · rcases hT : Client.Token c O key scopes 0
        (delStep c key scopes (pushEv s (.sleep (2 ^ retry)))) with ⟨tr, s3⟩
      have hi3 : s3.execIdx = s.execIdx := by
        have := Token_execIdx c O key scopes 0
          (delStep c key scopes (pushEv s (.sleep (2 ^ retry))))
        rw [hT] at this
        simpa using this
      cases tr with
      | error e1 =>
        have hloop : reqRetryLoop c O key scopes (n + 1) retry resp s = ((resp, some e1), s3) := by
          simp only [reqRetryLoop]
          rw [if_pos hcond, hT]
        rw [hloop] at hlt
        simp at hlt
        omega
      | ok tok =>
        cases hee : (O.exec s3.execIdx).err with
        | some e2 =>
          have hloop : reqRetryLoop c O key scopes (n + 1) retry resp s =
              (((O.exec s3.execIdx).resp, some (.plainErr e2)), bumpExec tok s3) := by
            simp only [reqRetryLoop]
            rw [if_pos hcond, hT]
            simp only [hee]
          rw [hloop] at hlt ⊢
          simp only [bumpExec_execIdx] at hlt
          have hj3 : s3.execIdx = j := by omega
          rw [hj3] at hee
          rw [hj] at hee
          obtain rfl : e = e2 := by injection hee
          refine ⟨rfl, ?_, ?_, ⟨tok, ?_⟩⟩
          · rw [hj3]
          · simp [hj3]
          · simp [List.getLast?_concat]
        | none =>
          have hloop : reqRetryLoop c O key scopes (n + 1) retry resp s =
              reqRetryLoop c O key scopes n (retry + 1) (O.exec s3.execIdx).resp
                (bumpExec tok s3) := by
            simp only [reqRetryLoop]
            rw [if_pos hcond, hT]
            simp only [hee]
          by_cases hj3 : s3.execIdx = j
          · rw [hj3, hj] at hee
            cases hee
          · have hle' : (bumpExec tok s3).execIdx ≤ j := by
              simp only [bumpExec_execIdx]
              omega
            rw [hloop] at hlt ⊢
            exact ih (retry + 1) (O.exec s3.execIdx).resp (bumpExec tok s3) hle' hlt
    · have hloop : reqRetryLoop c O key scopes (n + 1) retry resp s = ((resp, none), s) := by
        simp only [reqRetryLoop]
        rw [if_neg hcond]
      rw [hloop] at hlt
      simp at hlt
      omega

/-- C3: whenever the downstream call returns a non-nil (transport) error at
some invocation `j` that the orchestrator reaches — the initial one or any
retry — `RequestWithCustomRetry` returns immediately: the result is exactly
invocation `j`'s response paired with its error, no further downstream
invocation occurs (`j + 1` in total), and that invocation is the last event
of the whole trace, so no further sleep, cache eviction, or token fetch
follows it. -/
theorem C3_transport_error_returns_immediately (c : Client) (O : Oracle) (key : String)
    (scopes : List String) (numRetry : Int) (j : Nat) (e : String)
    (hj : (O.exec j).err = some e)
    (hreach : j < (Client.RequestWithCustomRetry c O key scopes numRetry St.init).2.execIdx) :
    (Client.RequestWithCustomRetry c O key scopes numRetry St.init).1.2 =
      some (.plainErr e) ∧
    (Client.RequestWithCustomRetry c O key scopes numRetry St.init).1.1 = (O.exec j).resp ∧
    (Client.RequestWithCustomRetry c O key scopes numRetry St.init).2.execIdx = j + 1 ∧
    ∃ t, (Client.RequestWithCustomRetry c O key scopes numRetry St.init).2.events.getLast? =
      some (.execEv t) := by
  rcases hT : Client.Token c O key scopes (if numRetry < 0 then c.maxRetry else numRetry)
    St.init with ⟨tr, s1⟩
  have hi1 : s1.execIdx = 0 := by
    have := Token_execIdx c O key scopes (if numRetry < 0 then c.maxRetry else numRetry) St.init
    rw [hT] at this
    simpa using this
  cases tr with
  | error e1 =>
    have hRR : Client.RequestWithCustomRetry c O key scopes numRetry St.init =
        ((none, some e1), s1) := by
      simp only [Client.RequestWithCustomRetry]
      rw [hT]
    rw [hRR] at hreach
    simp [hi1] at hreach
  | ok tok =>
    cases hee : (O.exec s1.execIdx).err with
    | some e2 =>
      have hRR : Client.RequestWithCustomRetry c O key scopes numRetry St.init =
          (((O.exec s1.execIdx).resp, some (.plainErr e2)), bumpExec tok s1) := by
        simp only [Client.RequestWithCustomRetry]
        rw [hT]
        simp only [hee]
      rw [hRR] at hreach ⊢
      simp only [bumpExec_execIdx, hi1] at hreach
      have hj0 : j = 0 := by omega
      subst hj0
      rw [hi1, hj] at hee
      obtain rfl : e2 = e := by injection hee with h; exact h.symm
      refine ⟨rfl, ?_, ?_, ⟨tok, ?_⟩⟩
      · rw [hi1]
      · simp [hi1]
      · simp [List.getLast?_concat]
    | none =>
      have hj0 : j ≠ 0 := by
        intro h
        rw [hi1] at hee
        subst h
        rw [hj] at hee
        cases hee
      by_cases hn : 0 < (if numRetry < 0 then c.maxRetry else numRetry)
      · have hRR : Client.RequestWithCustomRetry c O key scopes numRetry St.init =
            reqRetryLoop c O key scopes (if numRetry < 0 then c.maxRetry else numRetry).toNat 0
              (O.exec s1.execIdx).resp (bumpExec tok s1) := by
          simp only [Client.RequestWithCustomRetry]
          rw [hT]
          simp only [hee]
          rw [if_pos hn]
        have hle : (bumpExec tok s1).execIdx ≤ j := by
          simp only [bumpExec_execIdx, hi1]
          omega
        rw [hRR] at hreach ⊢
        exact reqRetryLoop_transport c O key scopes j e hj _ 0 _ _ hle hreach
      · have hRR : Client.RequestWithCustomRetry c O key scopes numRetry St.init =
            (((O.exec s1.execIdx).resp, none), bumpExec tok s1) := by
          simp only [Client.RequestWithCustomRetry]
          rw [hT]
          simp only [hee]
          rw [if_neg hn]
        rw [hRR] at hreach
        simp only [bumpExec_execIdx, hi1] at hreach
        omega

/-- C3 witness: the very first downstream invocation fails with a transport
error. -/
theorem C3_witness :
    (Client.RequestWithCustomRetry sampleClient oracleErr "svc" ["s1"] 2 St.init).1.2 =
      some (.plainErr "net down") ∧
    (Client.RequestWithCustomRetry sampleClient oracleErr "svc" ["s1"] 2 St.init).1.1 =
      (oracleErr.exec 0).resp ∧
    (Client.RequestWithCustomRetry sampleClient oracleErr "svc" ["s1"] 2 St.init).2.execIdx =
      0 + 1 ∧
    ∃ t, (Client.RequestWithCustomRetry sampleClient oracleErr "svc" ["s1"] 2
        St.init).2.events.getLast? = some (.execEv t) :=
  C3_transport_error_returns_immediately sampleClient oracleErr "svc" ["s1"] 2 0 "net down"
    rfl (by decide)

end Sand
